import Mathlib

/-!
# Verification of the bnpp-risk-insights feature-aggregation and anomaly-scoring core

A shallow embedding of the repository's core logic:

* `src/anomaly.py` — `detect_anomalies`: fit an IsolationForest on
  `[amount, tx_per_account]`, negate the native decision function, threshold at
  the `(1 - contamination)`-quantile, flag `is_anomaly = score >= threshold`.
* `src/model_default.py` / `src/pipeline.py` — per-account feature aggregation
  (`avg_amount`, `std_amount`, `tx_count`, `avg_delay_days`, `tx_count_per_day`)
  followed by column-mean imputation.
* `src/model_churn.py` / `src/pipeline.py` — per-client churn aggregation
  (`tenure_days`, `avg_balance`, `total_tx_count`, `days_since_last`), which reads
  the wall clock (`pd.Timestamp.today()`) inline; the ambient clock is passed
  explicitly here so that its influence is visible.
* `src/pipeline.py` — the report record built at the end of a run.

Numeric values are rationals (`ℚ`); dates are day numbers (`ℤ`).  Library
behaviour the Python code relies on is modelled faithfully:

* `np.quantile` with the default linear-interpolation method (`npQuantile`);
* scikit-learn's `IsolationForest`: the fitted tree ensemble is an abstract
  scoring function `model : seed → training set → point → score`; the offset is
  `np.percentile(score_samples, 100 * contamination)` and
  `decision_function = score_samples - offset`; fit-time parameter validation
  rejects `contamination` outside `(0, 0.5]` with `InvalidParameterError`, and an
  empty training set with an error (`EmptyInputError` in the spec's taxonomy);
* pandas element-wise division, which yields `inf`/`nan` (never an exception)
  when the divisor is zero (`pandasDiv`, `PandasVal`);
* pandas `std` with `ddof=1`: `NaN` when the group has a single row.  A float
  square root is irrational, so the embedding carries the sample variance
  (`std²`); this determines the std uniquely and is `none` exactly when the
  pandas std is `NaN`, which is all the claims depend on.
-/

/-! ## Data model -/

/-- A row of `fact_transactions` (see `etl.py`): the columns the core logic
reads.  `transaction_date` is a day number. -/
structure Tx where
  transaction_id : ℕ
  account_id : ℕ
  client_id : ℕ
  transaction_date : ℤ
  amount : ℚ
  deriving DecidableEq

/-- A row of `dim_accounts`: the columns the churn aggregation reads. -/
structure Account where
  account_id : ℕ
  client_id : ℕ
  opened_date : ℤ
  deriving DecidableEq

/-- A row of the dataframe handed to `detect_anomalies`: a transaction joined
with its `tx_per_account` frequency feature (`load_data` in `anomaly.py`), plus
the two columns `detect_anomalies` may add (`none` = column absent). -/
structure PRow where
  tx : Tx
  tx_per_account : ℕ
  anomaly_score : Option ℚ
  is_anomaly : Option Bool
  deriving DecidableEq

/-- The dataframe passed to / returned by `detect_anomalies`. -/
structure PDF where
  rows : List PRow
  deriving DecidableEq

/-- The error taxonomy of spec §7 for the paths the embedded code can take. -/
inductive PyError where
  | invalidParameterError
  | emptyInputError
  deriving DecidableEq

/-! ## `np.quantile` (linear interpolation, numpy's default method) -/

/-- Linear interpolation into a (sorted) list at fractional position `h`:
`a[⌊h⌋] + (h - ⌊h⌋) * (a[⌊h⌋+1] - a[⌊h⌋])`, the value `np.quantile` computes at
`h = q * (n - 1)`.  The out-of-range default for the upper neighbour is the
lower one, which is the value used when `h` is the last index. -/
def interpAt (s : List ℚ) (h : ℚ) : ℚ :=
  let lo := (⌊h⌋).toNat
  let a := s.getD lo 0
  let b := s.getD (lo + 1) a
  a + (h - lo) * (b - a)

/-- `np.quantile(xs, q)` with the default linear method: sort, then interpolate
at position `q * (len - 1)`. -/
def npQuantile (xs : List ℚ) (q : ℚ) : ℚ :=
  interpAt (xs.insertionSort (· ≤ ·)) (q * ((xs.length : ℚ) - 1))

/-! ## The anomaly scorer (`detect_anomalies` in `anomaly.py`) -/

/-- An abstract fitted isolation-forest scorer: given the random seed and the
training matrix, score one point ("higher = more normal", sklearn's
`score_samples` orientation).  The tree ensemble itself is opaque; the code
always fits with `random_state=42`. -/
def IsoModel : Type := ℕ → List (ℚ × ℚ) → (ℚ × ℚ) → ℚ

/-- The feature matrix `df[["amount", "tx_per_account"]].to_numpy()`. -/
def featureMatrix (df : PDF) : List (ℚ × ℚ) :=
  df.rows.map (fun r => (r.tx.amount, (r.tx_per_account : ℚ)))

/-- `iso.score_samples(X)` for the forest fitted on `X` with seed 42. -/
def isoScoreSamples (model : IsoModel) (X : List (ℚ × ℚ)) : List ℚ :=
  X.map (model 42 X)

/-- sklearn's fitted `offset_`:
`np.percentile(score_samples(X), 100 * contamination)`. -/
def isoOffset (model : IsoModel) (c : ℚ) (X : List (ℚ × ℚ)) : ℚ :=
  npQuantile (isoScoreSamples model X) c

/-- sklearn's `decision_function(X) = score_samples(X) - offset_`
("larger = more normal", as the comment in `anomaly.py` notes). -/
def isoDecisionFunction (model : IsoModel) (c : ℚ) (X : List (ℚ × ℚ)) : List ℚ :=
  (isoScoreSamples model X).map (fun s => s - isoOffset model c X)

/-- `scores = -iso.decision_function(X)` in `detect_anomalies`. -/
def anomalyScores (model : IsoModel) (df : PDF) (c : ℚ) : List ℚ :=
  (isoDecisionFunction model c (featureMatrix df)).map (fun d => -d)

/-- The column assignments `df["anomaly_score"] = scores` and
`df["is_anomaly"] = df["anomaly_score"] >= threshold`, per row. -/
def annotateRow (threshold : ℚ) (r : PRow) (s : ℚ) : PRow :=
  { r with anomaly_score := some s, is_anomaly := some (decide (threshold ≤ s)) }

/-- `detect_anomalies(df, contamination)` (`anomaly.py`, lines 43–56): fit the
forest, negate the decision function, threshold at the
`(1 - contamination)`-quantile, set the two result columns.  Fit-time
validation (sklearn) rejects `contamination` outside `(0, 0.5]` before looking
at the data, and then an empty training matrix. -/
def detect_anomalies (model : IsoModel) (df : PDF) (contamination : ℚ) :
    Except PyError PDF :=
  if 0 < contamination ∧ contamination ≤ 1/2 then
    if df.rows.isEmpty then .error .emptyInputError
    else
      let scores := anomalyScores model df contamination
      let threshold := npQuantile scores (1 - contamination)
      .ok ⟨List.zipWith (annotateRow threshold) df.rows scores⟩
  else .error .invalidParameterError

/-- The number of rows flagged `is_anomaly` by a scorer run (0 when the run
raised). -/
def flaggedCount (e : Except PyError PDF) : ℕ :=
  match e with
  | .ok out => out.rows.countP (fun r => decide (r.is_anomaly = some true))
  | .error _ => 0

/-! ## Facts about linear-interpolation quantiles -/

/-- The largest element of a non-empty list, read off the sorted copy. -/
def sortedMax (xs : List ℚ) : ℚ :=
  (xs.insertionSort (· ≤ ·)).getD (xs.length - 1) 0

lemma floor_toNat_cast_le {h : ℚ} (h0 : 0 ≤ h) : ((⌊h⌋.toNat : ℕ) : ℚ) ≤ h := by
  have hnn : (0 : ℤ) ≤ ⌊h⌋ := Int.floor_nonneg.2 h0
  have : ((⌊h⌋.toNat : ℤ) : ℚ) = ((⌊h⌋ : ℤ) : ℚ) := by
    exact_mod_cast congrArg (fun z : ℤ => (z : ℚ)) (Int.toNat_of_nonneg hnn)
  calc ((⌊h⌋.toNat : ℕ) : ℚ) = ((⌊h⌋ : ℤ) : ℚ) := by push_cast at this ⊢; linarith
    _ ≤ h := Int.floor_le h

lemma lt_floor_toNat_add_one {h : ℚ} (h0 : 0 ≤ h) : h < ((⌊h⌋.toNat : ℕ) : ℚ) + 1 := by
  have hnn : (0 : ℤ) ≤ ⌊h⌋ := Int.floor_nonneg.2 h0
  have hcast : ((⌊h⌋.toNat : ℤ) : ℚ) = ((⌊h⌋ : ℤ) : ℚ) := by
    exact_mod_cast congrArg (fun z : ℤ => (z : ℚ)) (Int.toNat_of_nonneg hnn)
  have := Int.lt_floor_add_one h
  push_cast at hcast ⊢
  linarith

lemma floor_toNat_le {h : ℚ} {n : ℕ} (hle : h ≤ (n : ℚ)) : ⌊h⌋.toNat ≤ n := by
  have h1 : ⌊h⌋ ≤ ⌊(n : ℚ)⌋ := Int.floor_le_floor hle
  have h2 : ⌊((n : ℕ) : ℚ)⌋ = (n : ℤ) := Int.floor_natCast n
  exact Int.toNat_le.2 (by omega)

lemma sorted_getD_mono {s : List ℚ} (hs : s.Sorted (· ≤ ·)) {i j : ℕ}
    (hij : i ≤ j) (hj : j < s.length) : s.getD i 0 ≤ s.getD j 0 := by
  have hi : i < s.length := lt_of_le_of_lt hij hj
  rw [List.getD_eq_getElem s 0 hi, List.getD_eq_getElem s 0 hj]
  have := hs.rel_get_of_le (a := ⟨i, hi⟩) (b := ⟨j, hj⟩) (by exact hij)
  simpa [List.get_eq_getElem] using this

lemma interpAt_def (s : List ℚ) (h : ℚ) :
    interpAt s h =
      s.getD (⌊h⌋).toNat 0 +
        (h - ((⌊h⌋).toNat : ℚ)) *
          (s.getD ((⌊h⌋).toNat + 1) (s.getD (⌊h⌋).toNat 0) - s.getD (⌊h⌋).toNat 0) := rfl

lemma getD_succ_ge {s : List ℚ} (hs : s.Sorted (· ≤ ·)) (lo : ℕ) :
    s.getD lo 0 ≤ s.getD (lo + 1) (s.getD lo 0) := by
  by_cases hlt : lo + 1 < s.length
  · calc s.getD lo 0 ≤ s.getD (lo + 1) 0 := sorted_getD_mono hs (Nat.le_succ lo) hlt
      _ = s.getD (lo + 1) (s.getD lo 0) := by
        rw [List.getD_eq_getElem _ _ hlt, List.getD_eq_getElem _ _ hlt]
  · have hge : s.length ≤ lo + 1 := by omega
    rw [List.getD_eq_default _ _ hge]

lemma interpAt_ge_lower {s : List ℚ} (hs : s.Sorted (· ≤ ·)) {h : ℚ} (h0 : 0 ≤ h) :
    s.getD (⌊h⌋).toNat 0 ≤ interpAt s h := by
  rw [interpAt_def]
  have ht : (0 : ℚ) ≤ h - ((⌊h⌋).toNat : ℚ) := by
    have := floor_toNat_cast_le h0; linarith
  have hba := getD_succ_ge hs (⌊h⌋).toNat
  nlinarith

lemma interpAt_le_upper {s : List ℚ} (hs : s.Sorted (· ≤ ·)) {h : ℚ} (h0 : 0 ≤ h) :
    interpAt s h ≤ s.getD ((⌊h⌋).toNat + 1) (s.getD (⌊h⌋).toNat 0) := by
  rw [interpAt_def]
  have ht : h - ((⌊h⌋).toNat : ℚ) ≤ 1 := by
    have := lt_floor_toNat_add_one h0; linarith
  have hba := getD_succ_ge hs (⌊h⌋).toNat
  nlinarith

lemma length_pos_of_le_sub_one {s : List ℚ} {h : ℚ} (h0 : 0 ≤ h)
    (hub : h ≤ (s.length : ℚ) - 1) : 1 ≤ s.length := by
  rcases Nat.eq_zero_or_pos s.length with h0n | hpos
  · rw [h0n] at hub; norm_num at hub; linarith
  · exact hpos

lemma floor_toNat_le_length_sub_one {s : List ℚ} {h : ℚ} (h0 : 0 ≤ h)
    (hub : h ≤ (s.length : ℚ) - 1) : (⌊h⌋).toNat ≤ s.length - 1 := by
  have hn := length_pos_of_le_sub_one h0 hub
  exact floor_toNat_le (by rw [Nat.cast_sub hn]; simpa using hub)

lemma interpAt_mono {s : List ℚ} (hs : s.Sorted (· ≤ ·)) {h1 h2 : ℚ}
    (h0 : 0 ≤ h1) (h12 : h1 ≤ h2) (hub : h2 ≤ (s.length : ℚ) - 1) :
    interpAt s h1 ≤ interpAt s h2 := by
  have h02 : 0 ≤ h2 := le_trans h0 h12
  have hfl : ⌊h1⌋ ≤ ⌊h2⌋ := Int.floor_le_floor h12
  have hlo12 : (⌊h1⌋).toNat ≤ (⌊h2⌋).toNat := Int.toNat_le_toNat hfl
  rcases eq_or_lt_of_le hlo12 with heq | hlt
  · rw [interpAt_def, interpAt_def, ← heq]
    have hba := getD_succ_ge hs (⌊h1⌋).toNat
    have ht1 : (0 : ℚ) ≤ h1 - ((⌊h1⌋).toNat : ℚ) := by
      have := floor_toNat_cast_le h0; linarith
    have key := mul_le_mul_of_nonneg_right
      (show h1 - ((⌊h1⌋).toNat : ℚ) ≤ h2 - ((⌊h1⌋).toNat : ℚ) by linarith)
      (show (0 : ℚ) ≤ s.getD ((⌊h1⌋).toNat + 1) (s.getD (⌊h1⌋).toNat 0) - s.getD (⌊h1⌋).toNat 0
        by linarith)
    linarith
  · have hn := length_pos_of_le_sub_one h02 hub
    have hlo2n : (⌊h2⌋).toNat ≤ s.length - 1 := floor_toNat_le_length_sub_one h02 hub
    have hlo2lt : (⌊h2⌋).toNat < s.length := by omega
    have c1 := interpAt_le_upper hs h0
    have c2 : s.getD ((⌊h1⌋).toNat + 1) (s.getD (⌊h1⌋).toNat 0) =
        s.getD ((⌊h1⌋).toNat + 1) 0 := by
      have hin : (⌊h1⌋).toNat + 1 < s.length := by omega
      rw [List.getD_eq_getElem _ _ hin, List.getD_eq_getElem _ _ hin]
    have c3 : s.getD ((⌊h1⌋).toNat + 1) 0 ≤ s.getD (⌊h2⌋).toNat 0 :=
      sorted_getD_mono hs (by omega) hlo2lt
    have c4 := interpAt_ge_lower hs h02
    linarith

lemma interpAt_le_sortedLast {s : List ℚ} (hs : s.Sorted (· ≤ ·)) {h : ℚ}
    (h0 : 0 ≤ h) (hub : h ≤ (s.length : ℚ) - 1) :
    interpAt s h ≤ s.getD (s.length - 1) 0 := by
  have hn := length_pos_of_le_sub_one h0 hub
  have hlo : (⌊h⌋).toNat ≤ s.length - 1 := floor_toNat_le_length_sub_one h0 hub
  have c1 := interpAt_le_upper hs h0
  by_cases hlt : (⌊h⌋).toNat + 1 < s.length
  · have c2 : s.getD ((⌊h⌋).toNat + 1) (s.getD (⌊h⌋).toNat 0) =
        s.getD ((⌊h⌋).toNat + 1) 0 := by
      rw [List.getD_eq_getElem _ _ hlt, List.getD_eq_getElem _ _ hlt]
    have c3 : s.getD ((⌊h⌋).toNat + 1) 0 ≤ s.getD (s.length - 1) 0 :=
      sorted_getD_mono hs (by omega) (by omega)
    linarith
  · have heq : (⌊h⌋).toNat = s.length - 1 := by omega
    have c2 : s.getD ((⌊h⌋).toNat + 1) (s.getD (⌊h⌋).toNat 0) = s.getD (⌊h⌋).toNat 0 :=
      List.getD_eq_default _ _ (by omega)
    rw [← heq]
    linarith

lemma interpAt_map_add {s : List ℚ} (k : ℚ) {h : ℚ} (h0 : 0 ≤ h)
    (hub : h ≤ (s.length : ℚ) - 1) :
    interpAt (s.map (fun x => k + x)) h = k + interpAt s h := by
  have hn := length_pos_of_le_sub_one h0 hub
  have hlo : (⌊h⌋).toNat ≤ s.length - 1 := floor_toNat_le_length_sub_one h0 hub
  have hloLt : (⌊h⌋).toNat < s.length := by omega
  have hloLt' : (⌊h⌋).toNat < (s.map (fun x => k + x)).length := by
    simpa using hloLt
  have ha : (s.map (fun x => k + x)).getD (⌊h⌋).toNat 0 = k + s.getD (⌊h⌋).toNat 0 := by
    rw [List.getD_eq_getElem _ _ hloLt', List.getD_eq_getElem _ _ hloLt, List.getElem_map]
  rw [interpAt_def, interpAt_def, ha]
  by_cases hlt : (⌊h⌋).toNat + 1 < s.length
  · have hlt' : (⌊h⌋).toNat + 1 < (s.map (fun x => k + x)).length := by simpa using hlt
    have hb : (s.map (fun x => k + x)).getD ((⌊h⌋).toNat + 1) (k + s.getD (⌊h⌋).toNat 0) =
        k + s.getD ((⌊h⌋).toNat + 1) (s.getD (⌊h⌋).toNat 0) := by
      rw [List.getD_eq_getElem _ _ hlt', List.getD_eq_getElem _ _ hlt, List.getElem_map]
    rw [hb]
    ring
  · have hge : s.length ≤ (⌊h⌋).toNat + 1 := by omega
    have hge' : (s.map (fun x => k + x)).length ≤ (⌊h⌋).toNat + 1 := by simpa using hge
    rw [List.getD_eq_default _ _ hge', List.getD_eq_default _ _ hge]
    ring

lemma insertionSort_sorted (xs : List ℚ) : (xs.insertionSort (· ≤ ·)).Sorted (· ≤ ·) :=
  List.sorted_insertionSort _ xs

lemma insertionSort_length (xs : List ℚ) : (xs.insertionSort (· ≤ ·)).length = xs.length :=
  (List.perm_insertionSort _ xs).length_eq

lemma quantile_pos_bounds {xs : List ℚ} (hne : xs ≠ []) {q : ℚ} (h0 : 0 ≤ q) (h1 : q ≤ 1) :
    0 ≤ q * ((xs.length : ℚ) - 1) ∧
      q * ((xs.length : ℚ) - 1) ≤ ((xs.insertionSort (· ≤ ·)).length : ℚ) - 1 := by
  have hn : 1 ≤ xs.length := List.length_pos.2 hne
  have hn' : (1 : ℚ) ≤ (xs.length : ℚ) := by exact_mod_cast hn
  constructor
  · exact mul_nonneg h0 (by linarith)
  · rw [insertionSort_length]
    nlinarith

/-- `np.quantile` is monotone in the quantile level. -/
lemma npQuantile_mono {xs : List ℚ} (hne : xs ≠ []) {q1 q2 : ℚ}
    (h0 : 0 ≤ q1) (h12 : q1 ≤ q2) (h1 : q2 ≤ 1) :
    npQuantile xs q1 ≤ npQuantile xs q2 := by
  unfold npQuantile
  obtain ⟨hb0, _⟩ := quantile_pos_bounds hne h0 (le_trans h12 h1)
  obtain ⟨_, hb1⟩ := quantile_pos_bounds hne (le_trans h0 h12) h1
  have hn : 1 ≤ xs.length := List.length_pos.2 hne
  have hn' : (1 : ℚ) ≤ (xs.length : ℚ) := by exact_mod_cast hn
  exact interpAt_mono (insertionSort_sorted xs) hb0
    (mul_le_mul_of_nonneg_right h12 (by linarith)) hb1

/-- `np.quantile` never exceeds the largest data point. -/
lemma npQuantile_le_sortedMax {xs : List ℚ} (hne : xs ≠ []) {q : ℚ}
    (h0 : 0 ≤ q) (h1 : q ≤ 1) : npQuantile xs q ≤ sortedMax xs := by
  unfold npQuantile sortedMax
  obtain ⟨hb0, hb1⟩ := quantile_pos_bounds hne h0 h1
  have := interpAt_le_sortedLast (insertionSort_sorted xs) hb0 hb1
  rwa [insertionSort_length] at this

/-- The maximum read off the sorted copy is one of the data points. -/
lemma sortedMax_mem {xs : List ℚ} (hne : xs ≠ []) : sortedMax xs ∈ xs := by
  unfold sortedMax
  have hn : 1 ≤ xs.length := List.length_pos.2 hne
  have hlt : xs.length - 1 < (xs.insertionSort (· ≤ ·)).length := by
    rw [insertionSort_length]; omega
  rw [List.getD_eq_getElem _ _ hlt]
  exact (List.perm_insertionSort (· ≤ ·) xs).mem_iff.1 (List.getElem_mem hlt)

/-- Sorting a list translated by a constant translates the sorted list. -/
lemma insertionSort_map_add (k : ℚ) (xs : List ℚ) :
    (xs.map (fun x => k + x)).insertionSort (· ≤ ·) =
      (xs.insertionSort (· ≤ ·)).map (fun x => k + x) := by
  apply List.eq_of_perm_of_sorted (r := ((· ≤ ·) : ℚ → ℚ → Prop))
  · exact (List.perm_insertionSort _ _).trans
      (((List.perm_insertionSort (· ≤ ·) xs).symm).map _)
  · exact List.sorted_insertionSort _ _
  · exact List.Pairwise.map _ (fun a b hab => by linarith)
      (insertionSort_sorted xs)

/-- `np.quantile` is equivariant under translating every data point by `k`. -/
lemma npQuantile_map_add (k : ℚ) {xs : List ℚ} (hne : xs ≠ []) {q : ℚ}
    (h0 : 0 ≤ q) (h1 : q ≤ 1) :
    npQuantile (xs.map (fun x => k + x)) q = k + npQuantile xs q := by
  unfold npQuantile
  rw [insertionSort_map_add, List.length_map]
  obtain ⟨hb0, hb1⟩ := quantile_pos_bounds hne h0 h1
  rw [insertionSort_length] at hb1
  exact interpAt_map_add k hb0 (by rwa [insertionSort_length])

/-! ## List plumbing for dataframe column assignment -/

lemma map_zipWith_second {α β γ δ : Type} (g : α → β → γ) (f : γ → δ) (q : β → δ)
    (hf : ∀ a b, f (g a b) = q b) :
    ∀ (l : List α) (s : List β), l.length = s.length →
      (List.zipWith g l s).map f = s.map q := by
  intro l
  induction l with
  | nil =>
    intro s h
    cases s with
    | nil => rfl
    | cons b s => simp at h
  | cons a l ih =>
    intro s h
    cases s with
    | nil => simp at h
    | cons b s => simp [hf, ih s (by simpa using h)]

lemma map_zipWith_first {α β γ δ : Type} (g : α → β → γ) (f : γ → δ) (q : α → δ)
    (hf : ∀ a b, f (g a b) = q a) :
    ∀ (l : List α) (s : List β), l.length = s.length →
      (List.zipWith g l s).map f = l.map q := by
  intro l
  induction l with
  | nil =>
    intro s h
    cases s with
    | nil => rfl
    | cons b s => simp at h
  | cons a l ih =>
    intro s h
    cases s with
    | nil => simp at h
    | cons b s => simp [hf, ih s (by simpa using h)]

lemma countP_zipWith_second {α β γ : Type} (g : α → β → γ) (p : γ → Bool) (q : β → Bool)
    (hf : ∀ a b, p (g a b) = q b) :
    ∀ (l : List α) (s : List β), l.length = s.length →
      (List.zipWith g l s).countP p = s.countP q := by
  intro l
  induction l with
  | nil =>
    intro s h
    cases s with
    | nil => rfl
    | cons b s => simp at h
  | cons a l ih =>
    intro s h
    cases s with
    | nil => simp at h
    | cons b s => simp [List.countP_cons, hf, ih s (by simpa using h)]

lemma anomalyScores_length (model : IsoModel) (df : PDF) (c : ℚ) :
    (anomalyScores model df c).length = df.rows.length := by
  simp [anomalyScores, isoDecisionFunction, isoScoreSamples, featureMatrix]

/-- The successful branch of `detect_anomalies`, written out. -/
lemma detect_anomalies_ok {model : IsoModel} {df : PDF} {c : ℚ}
    (hc : 0 < c ∧ c ≤ 1/2) (hne : df.rows ≠ []) :
    detect_anomalies model df c =
      .ok ⟨List.zipWith
        (annotateRow (npQuantile (anomalyScores model df c) (1 - c)))
        df.rows (anomalyScores model df c)⟩ := by
  unfold detect_anomalies
  rw [if_pos hc, if_neg (by simpa using hne)]

/-! ## Sample data used to instantiate theorems with hypotheses -/

/-- A concrete fitted-model stand-in: score a point by its amount. -/
def mW : IsoModel := fun _ _ p => p.1

/-- A second stand-in that behaves like `mW` at seed 42 but is syntactically
different. -/
def mW2 : IsoModel := fun n _ p => if n = 42 then p.1 else 0

/-- A concrete three-transaction dataframe (two accounts). -/
def dfW : PDF :=
  ⟨[⟨⟨1, 1, 1, 0, 50⟩, 2, none, none⟩,
    ⟨⟨2, 1, 1, 1, 55⟩, 2, none, none⟩,
    ⟨⟨3, 2, 2, 2, 5000⟩, 1, none, none⟩]⟩

/-! ## C1: score orientation, threshold, inclusive flag rule -/

/-- C1: for any valid contamination and non-empty transaction set,
`detect_anomalies` succeeds; the `anomaly_score` column is the pointwise
negation of the model's native decision function, and `is_anomaly` holds for
exactly the rows whose score is `≥` the `(1 - contamination)`-quantile of the
score distribution (ties included by the inclusive `≥`). -/
theorem detect_anomalies_score_and_threshold (model : IsoModel) (df : PDF) (c : ℚ)
    (hc : 0 < c) (hc2 : c ≤ 1/2) (hne : df.rows ≠ []) :
    ∃ out, detect_anomalies model df c = .ok out ∧
      out.rows.map (fun r => r.anomaly_score) =
        (isoDecisionFunction model c (featureMatrix df)).map (fun d => some (-d)) ∧
      ∀ r ∈ out.rows,
        r.is_anomaly =
          some (decide (npQuantile (anomalyScores model df c) (1 - c) ≤
            r.anomaly_score.getD 0)) := by
  refine ⟨_, detect_anomalies_ok ⟨hc, hc2⟩ hne, ?_, ?_⟩
  · have hlen : df.rows.length = (anomalyScores model df c).length :=
      (anomalyScores_length model df c).symm
    have hmap := map_zipWith_second
      (annotateRow (npQuantile (anomalyScores model df c) (1 - c)))
      (fun r : PRow => r.anomaly_score) (fun s : ℚ => some s)
      (fun a b => rfl) df.rows (anomalyScores model df c) hlen
    dsimp only
    rw [hmap]
    unfold anomalyScores
    rw [List.map_map]
    rfl
  · intro r hr
    obtain ⟨i, hlt, heq⟩ := List.mem_iff_getElem.1 hr
    rw [← heq, List.getElem_zipWith]
    rfl

/-- Witness for C1 at a concrete model, dataframe and contamination. -/
theorem detect_anomalies_score_and_threshold_witness :
    ((0 : ℚ) < 1/10 ∧ (1/10 : ℚ) ≤ 1/2 ∧ dfW.rows ≠ []) ∧
      (∃ out, detect_anomalies mW dfW (1/10) = .ok out ∧
        out.rows.map (fun r => r.anomaly_score) =
          (isoDecisionFunction mW (1/10) (featureMatrix dfW)).map (fun d => some (-d)) ∧
        ∀ r ∈ out.rows,
          r.is_anomaly =
            some (decide (npQuantile (anomalyScores mW dfW (1/10)) (1 - 1/10) ≤
              r.anomaly_score.getD 0))) :=
  ⟨⟨by norm_num, by norm_num, by decide⟩,
    detect_anomalies_score_and_threshold mW dfW (1/10)
      (by norm_num) (by norm_num) (by decide)⟩

/-! ## C3: out-of-range contamination fails with InvalidParameterError -/

/-- C3: `contamination` outside `(0, 0.5]` makes the scorer fail with
`InvalidParameterError` (sklearn's fit-time parameter validation), producing no
result. -/
theorem detect_anomalies_invalid_contamination (model : IsoModel) (df : PDF) (c : ℚ)
    (hc : ¬(0 < c ∧ c ≤ 1/2)) :
    detect_anomalies model df c = .error .invalidParameterError := by
  unfold detect_anomalies
  rw [if_neg hc]

/-- Witness for C3 at `contamination = 3/5 > 1/2`. -/
theorem detect_anomalies_invalid_contamination_witness :
    ¬((0 : ℚ) < 3/5 ∧ (3/5 : ℚ) ≤ 1/2) ∧
      detect_anomalies mW dfW (3/5) = .error .invalidParameterError :=
  ⟨by norm_num,
    detect_anomalies_invalid_contamination mW dfW (3/5) (by norm_num)⟩

/-! ## C6: determinism of the scorer -/

/-- C6: the scorer's output is a deterministic function of the transaction
set, the contamination and the seed-42 fitted model: any two models that
coincide at the fixed seed 42 (in particular, two runs of the same seeded
fit) produce identical results, score vector included. -/
theorem detect_anomalies_deterministic (m1 m2 : IsoModel) (df : PDF) (c : ℚ)
    (h : m1 42 = m2 42) :
    detect_anomalies m1 df c = detect_anomalies m2 df c := by
  unfold detect_anomalies anomalyScores isoDecisionFunction isoOffset isoScoreSamples
  rw [h]

/-- Witness for C6: two syntactically different models agreeing at seed 42
give identical runs. -/
theorem detect_anomalies_deterministic_witness :
    mW 42 = mW2 42 ∧
      detect_anomalies mW dfW (1/20) = detect_anomalies mW2 dfW (1/20) := by
  have h : mW 42 = mW2 42 := by
    funext X p
    simp [mW, mW2]
  exact ⟨h, detect_anomalies_deterministic mW mW2 dfW (1/20) h⟩

/-! ## C2: the flagged count is monotone in contamination -/

lemma isoScoreSamples_length (model : IsoModel) (df : PDF) :
    (isoScoreSamples model (featureMatrix df)).length = df.rows.length := by
  simp [isoScoreSamples, featureMatrix]

/-- The negated raw scores of the fitted (contamination-independent) forest. -/
def negBaseScores (model : IsoModel) (df : PDF) : List ℚ :=
  (isoScoreSamples model (featureMatrix df)).map (fun s => -s)

lemma negBaseScores_ne_nil {model : IsoModel} {df : PDF} (hne : df.rows ≠ []) :
    negBaseScores model df ≠ [] := by
  intro h
  apply hne
  have : (negBaseScores model df).length = df.rows.length := by
    simp [negBaseScores, isoScoreSamples_length]
  rw [h] at this
  exact List.length_eq_zero.1 this.symm

/-- The anomaly scores are the negated raw scores shifted by the
contamination-dependent sklearn offset. -/
lemma anomalyScores_eq_shift (model : IsoModel) (df : PDF) (c : ℚ) :
    anomalyScores model df c =
      (negBaseScores model df).map
        (fun x => isoOffset model c (featureMatrix df) + x) := by
  unfold anomalyScores isoDecisionFunction negBaseScores
  rw [List.map_map, List.map_map]
  congr 1
  funext s
  simp [Function.comp]
  ring

/-- The threshold is the same shift of a contamination-free quantile. -/
lemma threshold_eq_shift (model : IsoModel) (df : PDF) {c : ℚ}
    (hc : 0 < c) (hc2 : c ≤ 1/2) (hne : df.rows ≠ []) :
    npQuantile (anomalyScores model df c) (1 - c) =
      isoOffset model c (featureMatrix df) +
        npQuantile (negBaseScores model df) (1 - c) := by
  rw [anomalyScores_eq_shift]
  exact npQuantile_map_add _ (negBaseScores_ne_nil hne) (by linarith) (by linarith)

/-- The flag decision does not depend on the offset: the flagged count is the
count of negated raw scores above a contamination-free quantile. -/
lemma flaggedCount_eq_countP (model : IsoModel) (df : PDF) {c : ℚ}
    (hc : 0 < c) (hc2 : c ≤ 1/2) (hne : df.rows ≠ []) :
    flaggedCount (detect_anomalies model df c) =
      (negBaseScores model df).countP
        (fun x => decide (npQuantile (negBaseScores model df) (1 - c) ≤ x)) := by
  rw [detect_anomalies_ok ⟨hc, hc2⟩ hne]
  have hlen : df.rows.length = (anomalyScores model df c).length :=
    (anomalyScores_length model df c).symm
  have hcount := countP_zipWith_second
    (annotateRow (npQuantile (anomalyScores model df c) (1 - c)))
    (fun r : PRow => decide (r.is_anomaly = some true))
    (fun s : ℚ => decide (npQuantile (anomalyScores model df c) (1 - c) ≤ s))
    (fun a b => by
      by_cases hb : npQuantile (anomalyScores model df c) (1 - c) ≤ b <;>
        simp [annotateRow, hb])
    df.rows (anomalyScores model df c) hlen
  show (List.zipWith _ df.rows (anomalyScores model df c)).countP _ =
    (negBaseScores model df).countP _
  rw [hcount, threshold_eq_shift model df hc hc2 hne, anomalyScores_eq_shift,
    List.countP_map]
  have hfun :
      ((fun s : ℚ =>
          decide (isoOffset model c (featureMatrix df) +
            npQuantile (negBaseScores model df) (1 - c) ≤ s)) ∘
        (fun x : ℚ => isoOffset model c (featureMatrix df) + x)) =
      (fun x : ℚ => decide (npQuantile (negBaseScores model df) (1 - c) ≤ x)) := by
    funext x
    simp only [Function.comp]
    exact decide_eq_decide.2 (add_le_add_iff_left _)
  rw [hfun]

/-- C2: holding the data fixed, raising the contamination from `c1` to `c2`
(both valid) never decreases the number of rows flagged `is_anomaly`. -/
theorem detect_anomalies_flagged_monotone (model : IsoModel) (df : PDF) (c1 c2 : ℚ)
    (h1 : 0 < c1) (h12 : c1 ≤ c2) (h2 : c2 ≤ 1/2) :
    flaggedCount (detect_anomalies model df c1) ≤
      flaggedCount (detect_anomalies model df c2) := by
  by_cases hne : df.rows = []
  · have hv1 : 0 < c1 ∧ c1 ≤ 1/2 := ⟨h1, le_trans h12 h2⟩
    have hv2 : 0 < c2 ∧ c2 ≤ 1/2 := ⟨lt_of_lt_of_le h1 h12, h2⟩
    have hemp : df.rows.isEmpty = true := by simp [hne]
    unfold detect_anomalies
    rw [if_pos hv1, if_pos hv2, if_pos hemp, if_pos hemp]
  · rw [flaggedCount_eq_countP model df h1 (le_trans h12 h2) hne,
      flaggedCount_eq_countP model df (lt_of_lt_of_le h1 h12) h2 hne]
    apply List.countP_mono_left
    intro x _ hpx
    have hT : npQuantile (negBaseScores model df) (1 - c2) ≤
        npQuantile (negBaseScores model df) (1 - c1) :=
      npQuantile_mono (negBaseScores_ne_nil hne) (by linarith) (by linarith) (by linarith)
    simp only [decide_eq_true_eq] at hpx ⊢
    linarith

/-- Witness for C2 at contaminations 1/10 ≤ 1/5 on concrete data. -/
theorem detect_anomalies_flagged_monotone_witness :
    ((0 : ℚ) < 1/10 ∧ (1/10 : ℚ) ≤ 1/5 ∧ (1/5 : ℚ) ≤ 1/2) ∧
      flaggedCount (detect_anomalies mW dfW (1/10)) ≤
        flaggedCount (detect_anomalies mW dfW (1/5)) :=
  ⟨⟨by norm_num, by norm_num, by norm_num⟩,
    detect_anomalies_flagged_monotone mW dfW (1/10) (1/5)
      (by norm_num) (by norm_num) (by norm_num)⟩

/-! ## C10: the flag set is non-empty for valid contamination; the claim's
range (0, 1) is too wide, since fitting rejects contamination above 1/2 -/

/-- Counterexample to C10 as stated: the dataframe `dfW` is non-empty and
`3/4` lies in `(0, 1)`, yet `detect_anomalies` raises
`InvalidParameterError` there (sklearn validates `contamination ∈ (0, 0.5]`),
so no transaction is flagged. -/
theorem detect_anomalies_no_flags_above_half :
    dfW.rows ≠ [] ∧ ((0 : ℚ) < 3/4 ∧ (3/4 : ℚ) < 1) ∧
      detect_anomalies mW dfW (3/4) = .error .invalidParameterError ∧
      flaggedCount (detect_anomalies mW dfW (3/4)) = 0 := by
  have hdet : detect_anomalies mW dfW (3/4) = .error .invalidParameterError := by
    unfold detect_anomalies
    rw [if_neg (by norm_num)]
  exact ⟨by decide, ⟨by norm_num, by norm_num⟩, hdet, by rw [hdet]; rfl⟩

/-- C10 (amended): for every non-empty transaction set and contamination in
the valid range `(0, 1/2]`, `detect_anomalies` succeeds and flags at least one
transaction: the maximal score is `≥` the `(1 - c)`-quantile of the scores, so
the inclusive threshold rule never yields an empty flag set. -/
theorem detect_anomalies_flags_nonempty (model : IsoModel) (df : PDF) (c : ℚ)
    (hc : 0 < c) (hc2 : c ≤ 1/2) (hne : df.rows ≠ []) :
    ∃ out, detect_anomalies model df c = .ok out ∧
      ∃ r ∈ out.rows, r.is_anomaly = some true := by
  refine ⟨_, detect_anomalies_ok ⟨hc, hc2⟩ hne, ?_⟩
  have hslen : (anomalyScores model df c).length = df.rows.length :=
    anomalyScores_length model df c
  have hsne : anomalyScores model df c ≠ [] := by
    intro h
    apply hne
    rw [h] at hslen
    exact List.length_eq_zero.1 hslen.symm
  have hmem : sortedMax (anomalyScores model df c) ∈ anomalyScores model df c :=
    sortedMax_mem hsne
  have hthr : npQuantile (anomalyScores model df c) (1 - c) ≤
      sortedMax (anomalyScores model df c) :=
    npQuantile_le_sortedMax hsne (by linarith) (by linarith)
  obtain ⟨i, hi, heq⟩ := List.mem_iff_getElem.1 hmem
  have hiz : i < (List.zipWith
      (annotateRow (npQuantile (anomalyScores model df c) (1 - c)))
      df.rows (anomalyScores model df c)).length := by
    rw [List.length_zipWith]
    omega
  refine ⟨_, List.getElem_mem hiz, ?_⟩
  rw [List.getElem_zipWith]
  show some (decide (npQuantile (anomalyScores model df c) (1 - c) ≤
    (anomalyScores model df c)[i])) = some true
  rw [heq]
  simp [hthr]

/-- Witness for the amended C10 on concrete data. -/
theorem detect_anomalies_flags_nonempty_witness :
    ((0 : ℚ) < 1/10 ∧ (1/10 : ℚ) ≤ 1/2 ∧ dfW.rows ≠ []) ∧
      (∃ out, detect_anomalies mW dfW (1/10) = .ok out ∧
        ∃ r ∈ out.rows, r.is_anomaly = some true) :=
  ⟨⟨by norm_num, by norm_num, by decide⟩,
    detect_anomalies_flags_nonempty mW dfW (1/10)
      (by norm_num) (by norm_num) (by decide)⟩

/-! ## C9: `detect_anomalies` mutates its argument in place

Python dataframes are heap objects: `df["anomaly_score"] = scores` writes
through the reference and `return df` returns the same object.  The heap is
modelled as a list of dataframes and a reference as an index into it;
`detect_anomalies_inplace` is the state-passing form of the call. -/

/-- `detect_anomalies(df, c)` viewed as a heap operation: read the frame the
reference points to, update it in place (writing the two new columns through
the reference), and return the same reference. -/
def detect_anomalies_inplace (model : IsoModel) (store : List PDF) (ref : ℕ)
    (c : ℚ) : Except PyError (List PDF × ℕ) :=
  match detect_anomalies model (store.getD ref ⟨[]⟩) c with
  | .error e => .error e
  | .ok out => .ok (store.set ref out, ref)

/-- C9: on success the returned reference is the argument reference itself,
the heap cell it points to now holds the annotated frame (every pre-existing
column and every row unchanged, in order, with `anomaly_score` and
`is_anomaly` added to each row), and no other heap cell changes.  A caller
that wants the original frame untouched must therefore pass a copy, as
`app.py` does with `df.copy()`. -/
theorem detect_anomalies_inplace_spec (model : IsoModel) (store : List PDF)
    (ref : ℕ) (c : ℚ) (hc : 0 < c) (hc2 : c ≤ 1/2)
    (hne : (store.getD ref ⟨[]⟩).rows ≠ []) :
    ∃ out, detect_anomalies model (store.getD ref ⟨[]⟩) c = .ok out ∧
      detect_anomalies_inplace model store ref c = .ok (store.set ref out, ref) ∧
      out.rows.map (fun r => (r.tx, r.tx_per_account)) =
        (store.getD ref ⟨[]⟩).rows.map (fun r => (r.tx, r.tx_per_account)) ∧
      (∀ r ∈ out.rows, r.anomaly_score.isSome ∧ r.is_anomaly.isSome) ∧
      ∀ j, j ≠ ref → (store.set ref out).getD j ⟨[]⟩ = store.getD j ⟨[]⟩ := by
  have hok := @detect_anomalies_ok model (store.getD ref ⟨[]⟩) c ⟨hc, hc2⟩ hne
  refine ⟨_, hok, ?_, ?_, ?_, ?_⟩
  · unfold detect_anomalies_inplace
    rw [hok]
  · have hlen : (store.getD ref ⟨[]⟩).rows.length =
        (anomalyScores model (store.getD ref ⟨[]⟩) c).length :=
      (anomalyScores_length model _ c).symm
    exact map_zipWith_first
      (annotateRow (npQuantile (anomalyScores model (store.getD ref ⟨[]⟩) c) (1 - c)))
      (fun r : PRow => (r.tx, r.tx_per_account))
      (fun r : PRow => (r.tx, r.tx_per_account))
      (fun a b => rfl) _ _ hlen
  · intro r hr
    obtain ⟨i, hlt, heq⟩ := List.mem_iff_getElem.1 hr
    rw [← heq, List.getElem_zipWith]
    exact ⟨rfl, rfl⟩
  · intro j hj
    rw [List.getD_eq_getElem?_getD, List.getElem?_set_ne (Ne.symm hj)]
    exact (List.getD_eq_getElem?_getD _ _ _).symm

/-- Witness for C9 on a one-frame heap. -/
theorem detect_anomalies_inplace_spec_witness :
    ((0 : ℚ) < 1/10 ∧ (1/10 : ℚ) ≤ 1/2 ∧ (([dfW].getD 0 ⟨[]⟩)).rows ≠ []) ∧
      (∃ out, detect_anomalies mW ([dfW].getD 0 ⟨[]⟩) (1/10) = .ok out ∧
        detect_anomalies_inplace mW [dfW] 0 (1/10) = .ok ([dfW].set 0 out, 0) ∧
        out.rows.map (fun r => (r.tx, r.tx_per_account)) =
          ([dfW].getD 0 ⟨[]⟩).rows.map (fun r => (r.tx, r.tx_per_account)) ∧
        (∀ r ∈ out.rows, r.anomaly_score.isSome ∧ r.is_anomaly.isSome) ∧
        ∀ j, j ≠ 0 → ([dfW].set 0 out).getD j ⟨[]⟩ = [dfW].getD j ⟨[]⟩) :=
  ⟨⟨by norm_num, by norm_num, by decide⟩,
    detect_anomalies_inplace_spec mW [dfW] 0 (1/10)
      (by norm_num) (by norm_num) (by decide)⟩

/-! ## Feature aggregation per account (`model_default.py` / `pipeline.py`) -/

/-- A pandas float cell: a finite value, an infinity, or NaN. -/
inductive PandasVal where
  | fin (q : ℚ)
  | inf
  | negInf
  | nan
  deriving DecidableEq

/-- pandas/numpy element-wise division: dividing by zero yields `inf`,
`-inf` or `nan` (with only a warning) instead of raising. -/
def pandasDiv (a b : ℚ) : PandasVal :=
  if b = 0 then
    if 0 < a then .inf else if a < 0 then .negInf else .nan
  else .fin (a / b)

/-- Mean of a list of rationals (`sum / len`; only used on non-empty lists). -/
def listMean (xs : List ℚ) : ℚ := xs.sum / xs.length

/-- pandas `mean`: NaN (`none`) on an empty series. -/
def listMeanOpt (xs : List ℚ) : Option ℚ :=
  if xs.length = 0 then none else some (listMean xs)

/-- pandas `std` with `ddof=1`, represented by its square (the sample
variance): NaN (`none`) when the series has at most one element.  The square
determines the std and is `none` exactly when the std is NaN. -/
def sampleVar (xs : List ℚ) : Option ℚ :=
  if xs.length ≤ 1 then none
  else some ((xs.map (fun x => (x - listMean xs) ^ 2)).sum / ((xs.length : ℚ) - 1))

/-- `d.diff().dt.days.dropna()`: consecutive day differences of the (sorted)
date column; the leading NaT of `diff` is dropped. -/
def dayDiffs (dates : List ℤ) : List ℚ :=
  List.zipWith (fun b a => ((b - a : ℤ) : ℚ)) dates.tail dates

/-- The groupby keys: distinct `account_id`s in ascending order
(pandas `groupby` sorts keys). -/
def accountKeys (txs : List Tx) : List ℕ :=
  ((txs.map (fun t => t.account_id)).dedup).insertionSort (· ≤ ·)

/-- One group: the transactions of account `a`, sorted by `transaction_date`
(the frame is sorted by `["account_id", "transaction_date"]` first). -/
def groupTx (txs : List Tx) (a : ℕ) : List Tx :=
  (txs.filter (fun t => t.account_id == a)).insertionSort
    (fun t u => t.transaction_date ≤ u.transaction_date)

/-- One row of the aggregated `features` frame of `model_default.py`
(= `features_def` in `pipeline.py`). -/
structure FeatRow where
  account_id : ℕ
  avg_amount : ℚ
  std_amount : Option ℚ
  tx_count : ℕ
  avg_delay_days : Option ℚ
  tx_count_per_day : PandasVal
  deriving DecidableEq

/-- The aggregation body of `model_default.py` §3: `avg_amount` (mean),
`std_amount` (sample std, NaN at count 1), `tx_count`,
`avg_delay_days` (mean of consecutive day diffs, NaN below 2 rows), then
`tx_count_per_day = tx_count / total_days` with pandas division. -/
def featRowOf (totalDays : ℕ) (a : ℕ) (g : List Tx) : FeatRow :=
  let amounts := g.map (fun t => t.amount)
  let dates := g.map (fun t => t.transaction_date)
  { account_id := a
    avg_amount := listMean amounts
    std_amount := sampleVar amounts
    tx_count := g.length
    avg_delay_days := listMeanOpt (dayDiffs dates)
    tx_count_per_day := pandasDiv (g.length : ℚ) (totalDays : ℚ) }

/-- `features` in `model_default.py` (lines 42–66) / `features_def` in
`pipeline.py` (lines 44–59): group the transaction frame by `account_id` and
aggregate, `total_days` being `df_time["date"].nunique()`. -/
def features_def (txs : List Tx) (totalDays : ℕ) : List FeatRow :=
  (accountKeys txs).map (fun a => featRowOf totalDays a (groupTx txs a))

/-- Column mean over the non-missing entries
(`SimpleImputer(strategy="mean")`'s fitted statistic). -/
def colMean (col : List (Option ℚ)) : ℚ :=
  listMean (col.filterMap id)

/-- `SimpleImputer(missing_values=np.nan, strategy="mean")` applied to one
column: missing entries are replaced by the column mean of the present ones. -/
def imputeColumn (col : List (Option ℚ)) : List ℚ :=
  col.map (fun v => v.getD (colMean col))

/-! ## C4: zero day span divides by zero silently (pandas semantics) -/

/-- The spec's scenario: non-empty transaction set, `total_distinct_days = 0`. -/
def txsZeroSpan : List Tx :=
  [⟨1, 1, 1, 0, 50⟩, ⟨2, 1, 1, 1, 60⟩, ⟨3, 1, 1, 2, 70⟩]

/-- C4 (what the code actually does): with three transactions and a distinct-day
span of 0, the aggregation completes and `tx_count_per_day` is `inf` —
pandas division by zero warns and produces infinity, it does not raise a
`DivisionError`, and the infinity flows on into the feature matrix. -/
theorem features_def_zero_span_infinity :
    (features_def txsZeroSpan 0).map (fun r => r.tx_count_per_day) =
      [PandasVal.inf] := by
  decide

/-! ## C5: a single-transaction entity gets NaN std and delay, then imputation -/

/-- C5: an account with exactly one transaction gets `std_amount = NaN`
(sample std with `ddof=1` is undefined at count 1) and
`avg_delay_days = NaN` (no consecutive pairs), not zeros; and
`SimpleImputer(strategy="mean")` later replaces every missing entry of a
feature column with the mean of that column's present entries. -/
theorem singleton_entity_nulls_then_imputed (txs : List Tx) (totalDays a : ℕ)
    (h1 : (txs.filter (fun t => t.account_id == a)).length = 1) :
    (∀ r ∈ features_def txs totalDays, r.account_id = a →
      r.std_amount = none ∧ r.avg_delay_days = none) ∧
    ∀ (col : List (Option ℚ)) (i : ℕ), col[i]? = some none →
      (imputeColumn col)[i]? = some (colMean col) := by
  constructor
  · intro r hr hra
    obtain ⟨k, hk, rfl⟩ := List.mem_map.1 hr
    have hka : k = a := hra
    subst hka
    have hglen : (groupTx txs k).length = 1 := by
      unfold groupTx
      rw [(List.perm_insertionSort
        (fun t u : Tx => t.transaction_date ≤ u.transaction_date)
        (txs.filter (fun t => t.account_id == k))).length_eq]
      exact h1
    obtain ⟨t, ht⟩ := List.length_eq_one.1 hglen
    rw [ht]
    exact ⟨rfl, rfl⟩
  · intro col i hcol
    unfold imputeColumn
    rw [List.getElem?_map, hcol]
    rfl

/-- Sample data for C5: account 1 has exactly one transaction. -/
def txsC5 : List Tx :=
  [⟨1, 1, 1, 0, 50⟩, ⟨2, 2, 1, 3, 60⟩, ⟨3, 2, 1, 9, 70⟩]

/-- Witness for C5 on concrete data. -/
theorem singleton_entity_nulls_then_imputed_witness :
    ((txsC5.filter (fun t => t.account_id == 1)).length = 1) ∧
      ((∀ r ∈ features_def txsC5 5, r.account_id = 1 →
        r.std_amount = none ∧ r.avg_delay_days = none) ∧
      ∀ (col : List (Option ℚ)) (i : ℕ), col[i]? = some none →
        (imputeColumn col)[i]? = some (colMean col)) :=
  ⟨by decide, singleton_entity_nulls_then_imputed txsC5 5 1 (by decide)⟩

/-! ## Churn feature aggregation (`model_churn.py` / `pipeline.py`)

`pd.Timestamp.today()` is read inline inside the aggregation lambdas; the
ambient wall-clock day is therefore an explicit `today` argument here, so
that two runs at different instants are two different applications. -/

/-- `df_tx.merge(df_acct, on="account_id")`: each transaction paired with
every matching account row. -/
def mergeTxAcct (txs : List Tx) (accts : List Account) : List (Tx × Account) :=
  txs.flatMap (fun t =>
    (accts.filter (fun a => a.account_id == t.account_id)).map (fun a => (t, a)))

/-- Minimum of an integer column (`d.min()`; used on non-empty groups). -/
def listMinZ (xs : List ℤ) : ℤ := xs.foldl min (xs.headD 0)

/-- Maximum of an integer column (`d.max()`; used on non-empty groups). -/
def listMaxZ (xs : List ℤ) : ℤ := xs.foldl max (xs.headD 0)

/-- One row of the aggregated churn `features` frame. -/
structure ChurnRow where
  client_id : ℕ
  tenure_days : ℤ
  avg_balance : ℚ
  total_tx_count : ℕ
  days_since_last : ℤ
  deriving DecidableEq

/-- The groupby keys of the merged frame: distinct `client_id`s (transaction
side), ascending. -/
def clientKeys (m : List (Tx × Account)) : List ℕ :=
  ((m.map (fun p => p.1.client_id)).dedup).insertionSort (· ≤ ·)

/-- `features` in `model_churn.py` (lines 59–72) / `features_churn` in
`pipeline.py` (lines 81–89): group the merged frame by `client_id`;
`tenure_days = (today - opened_date.min()).days`,
`days_since_last = (today - transaction_date.max()).days`, where `today` is
the inline `pd.Timestamp.today()` read. -/
def features_churn (today : ℤ) (txs : List Tx) (accts : List Account) :
    List ChurnRow :=
  let m := mergeTxAcct txs accts
  (clientKeys m).map (fun cid =>
    let g := m.filter (fun p => p.1.client_id == cid)
    { client_id := cid
      tenure_days := today - listMinZ (g.map (fun p => p.2.opened_date))
      avg_balance := listMean (g.map (fun p => p.1.amount))
      total_tx_count := g.length
      days_since_last := today - listMaxZ (g.map (fun p => p.1.transaction_date)) })

/-! ## C8: aggregation is not reproducible — `now` is a wall-clock read -/

/-- One transaction of client 5 on day 40. -/
def txC8 : List Tx := [⟨1, 1, 5, 40, 100⟩]

/-- The matching account, opened on day 10. -/
def acctC8 : List Account := [⟨1, 5, 10⟩]

/-- C8 (what the code actually does): the churn aggregation reads
`pd.Timestamp.today()` inline, so the same transaction and account set
aggregated on two different days yields different `FeatureVectors`
(`days_since_last` 60 vs 61) — the aggregation is not a function of its data
input alone, hence not idempotent across runs. -/
theorem churn_features_wall_clock_dependent :
    features_churn 100 txC8 acctC8 ≠ features_churn 101 txC8 acctC8 ∧
      (features_churn 100 txC8 acctC8).map (fun r => r.days_since_last) = [60] ∧
      (features_churn 101 txC8 acctC8).map (fun r => r.days_since_last) = [61] := by
  refine ⟨by decide, by decide, by decide⟩

/-! ## C7: the report record (`pipeline.py`, lines 117–122) -/

/-- The single report record of a pipeline run, with its four top-level
keys. -/
structure Report where
  timestamp : String
  default_risk_summary : List (ℕ × ℚ)
  churn_risk_summary : List (ℕ × ℚ)
  anomalies : List PRow

/-- `report = {...}` in `pipeline.py`: per-account `(account_id, default_risk)`
pairs, per-client `(client_id, churn_risk)` pairs, and
`df_anom[df_anom['is_anomaly']]` — the flagged rows only. -/
def buildReport (ts : String) (featDef : List (FeatRow × ℚ))
    (featChurn : List (ChurnRow × ℚ)) (df_anom : PDF) : Report :=
  { timestamp := ts
    default_risk_summary := featDef.map (fun p => (p.1.account_id, p.2))
    churn_risk_summary := featChurn.map (fun p => (p.1.client_id, p.2))
    anomalies := df_anom.rows.filter (fun r => decide (r.is_anomaly = some true)) }

/-- C7: a completed run builds exactly one `Report` record (whose four
fields are the four top-level keys), and its `anomalies` list is exactly the
boolean-mask selection of the flagged rows: every listed row comes from the
scored frame and is flagged, and every flagged row of the scored frame is
listed. -/
theorem buildReport_anomalies_flagged_only (ts : String)
    (featDef : List (FeatRow × ℚ)) (featChurn : List (ChurnRow × ℚ))
    (df_anom : PDF) :
    (buildReport ts featDef featChurn df_anom).anomalies =
      df_anom.rows.filter (fun r => decide (r.is_anomaly = some true)) ∧
    (∀ r ∈ (buildReport ts featDef featChurn df_anom).anomalies,
      r ∈ df_anom.rows ∧ r.is_anomaly = some true) ∧
    ∀ r ∈ df_anom.rows, r.is_anomaly = some true →
      r ∈ (buildReport ts featDef featChurn df_anom).anomalies := by
  refine ⟨rfl, ?_, ?_⟩
  · intro r hr
    have hm := List.mem_filter.1 hr
    exact ⟨hm.1, by simpa using hm.2⟩
  · intro r hr hflag
    exact List.mem_filter.2 ⟨hr, by simpa using hflag⟩
